import Mathlib

/-!
Shallow embedding of `full_cleaniness_validation.py`: the document data model,
the metric helper functions, and the `validate_docs` reporting pass, together
with theorems checking the specification's claims against this embedding.

Modelling conventions:
* Python float arithmetic is modelled exactly: character ratios as rationals,
  the entropy value (which uses `math.log2`) as a real number.
* A document's `page_content` field may be absent (`None` in Python); it is
  modelled as `Option String`.  The code's pervasive `d.page_content or ""`
  idiom is `contentOrEmpty`.
* Each `print` call of the validator is one constructor of `Line`, carrying
  exactly the data interpolated into the printed text.
* The one run-time failure reachable inside `validate_docs` (calling
  `.replace` on a `None` content while building the duplicate preview, an
  `AttributeError`) is modelled by `PyError`; a `RunResult` carries the lines
  printed before the failure, and the document collection as the function
  leaves it, which makes the frame property (no document is mutated)
  expressible.
-/

/-- A LangChain document as the validator sees it: text content (possibly
absent) plus a string-keyed metadata mapping, modelled as an association
list. -/
structure Document where
  page_content : Option String
  metadata : List (String × String)
deriving DecidableEq

/-- The Python expression `d.page_content or ""`: an absent content field is
read as the empty string. -/
def contentOrEmpty (d : Document) : String :=
  d.page_content.getD ""

/-- The `AttributeError` raised by `None.replace(...)` in the duplicate
preview, the only exception reachable inside `validate_docs`. -/
inductive PyError where
  | attributeError
deriving DecidableEq

/-- The character codes of Python's `string.punctuation`: ASCII 33-47,
58-64, 91-96 and 123-126. -/
def punctuationChars : List Char :=
  [33, 34, 35, 36, 37, 38, 39, 40, 41, 42, 43, 44, 45, 46, 47,
   58, 59, 60, 61, 62, 63, 64, 91, 92, 93, 94, 95, 96,
   123, 124, 125, 126].map Char.ofNat

/-- Helper for `firstDedup`: drop the elements already seen, keep the first
occurrence of each new element. -/
def firstDedupAux {α : Type} [DecidableEq α] (seen : List α) : List α → List α
  | [] => []
  | a :: l => if a ∈ seen then firstDedupAux seen l else a :: firstDedupAux (a :: seen) l

/-- Keys of a Python `collections.Counter` (a dict) in insertion order: the
elements of `l` with duplicates removed, keeping first occurrences. -/
def firstDedup {α : Type} [DecidableEq α] (l : List α) : List α :=
  firstDedupAux [] l

/-- Stable insertion into a list sorted by the total preorder `le`: the new
element goes in front of the first element it compares `le` to, hence after
every equal element already present — exactly where Python's stable `sorted`
leaves a later-occurring equal element. -/
def stableInsert {α : Type} (le : α → α → Bool) (a : α) : List α → List α
  | [] => [a]
  | b :: l => if le a b then a :: b :: l else b :: stableInsert le a l

/-- Stable sort by the total preorder `le` (insertion sort).  Python's
`sorted` is a stable sort, so on every total preorder it computes this same
list. -/
def stableSort {α : Type} (le : α → α → Bool) : List α → List α
  | [] => []
  | a :: l => stableInsert le a (stableSort le l)

/-- Values of `collections.Counter(l)` in iteration order: for each distinct
element of `l` (first-occurrence order), its number of occurrences. -/
def countsOf {α : Type} [DecidableEq α] (l : List α) : List Nat :=
  (firstDedup l).map (fun a => l.count a)

/-- Source `shannon_entropy` (lines 28-38): character-frequency Shannon
entropy, `-sum(p * log2 p for p in probs if p > 0)` with
`probs = [count / total for count in Counter(text).values()]`, and `0.0` on
empty text.  The float value is modelled as a real number. -/
noncomputable def shannon_entropy (text : String) : ℝ :=
  if text.data = [] then 0
  else
    let total : ℕ := text.data.length
    let probs : List ℝ := (countsOf text.data).map (fun (count : ℕ) => (count : ℝ) / (total : ℝ))
    Neg.neg (((probs.filter (fun p => decide (0 < p))).map (fun p => p * Real.logb 2 p)).sum)

/-- Product of `c ^ c` over the `Counter` values of `l`; the quantity `P`
with `entropy * length = log2 (length ^ length) - log2 P`. -/
def countsPowProd (l : List Char) : ℕ :=
  ((countsOf l).map (fun c => c ^ c)).prod

/-- Decidable characterization of the float test `e > 0 and e < 2.5` applied
to `shannon_entropy`, used so that the validator stays executable.  With
`n` the text length and `P` the product over the distinct-character counts
`c` of `c ^ c`, the entropy `H` satisfies `H * n = log2 (n ^ n) - log2 P`,
so `H > 0` iff `P < n ^ n` and `H < 5 / 2` iff `(n ^ n) ^ 2 < 2 ^ (5 * n) * P ^ 2`.
The equivalence with the real-valued condition is proved in
`lowEntropyB_iff_entropy` below. -/
def lowEntropyB (s : String) : Bool :=
  let n := s.data.length
  let P := countsPowProd s.data
  decide (P < n ^ n) && decide ((n ^ n) ^ 2 < 2 ^ (5 * n) * P ^ 2)

/-- Python default value of the `threshold_ratio` parameter of
`is_non_ascii_heavy` (the float literal `0.05`). -/
def NON_ASCII_DEFAULT_THRESHOLD : ℚ := 0.05

/-- Source `is_non_ascii_heavy` (lines 41-48): true when more than
`threshold_ratio` of the characters have code point above 127; false on
empty text.  The Python default `threshold_ratio=0.05` is
`NON_ASCII_DEFAULT_THRESHOLD`, passed explicitly by callers. -/
def is_non_ascii_heavy (text : String) (threshold_ratio : ℚ) : Bool :=
  if text.data = [] then false
  else
    let non_ascii := (text.data.filter (fun c => 127 < c.toNat)).length
    decide (threshold_ratio < (non_ascii : ℚ) / (text.data.length : ℚ))

/-- Source `punctuation_density` (lines 51-59): ratio of punctuation
characters to total length, `0.0` on empty text. -/
def punctuation_density (text : String) : ℚ :=
  if text.data = [] then 0
  else ((text.data.filter (fun c => c ∈ punctuationChars)).length : ℚ) / (text.data.length : ℚ)

/-- Source `newline_count` (lines 62-63): `text.count("\n")`. -/
def newline_count (text : String) : Nat :=
  text.data.count '\n'

/-- Presence test for the regex `[ﬁﬂ]` (the ligature characters U+FB01 and
U+FB02), as used by `re.search`. -/
def hasLigature (s : String) : Bool :=
  s.data.any (fun c => c = Char.ofNat 0xFB01 || c = Char.ofNat 0xFB02)

/-- Presence test for the regex `[�]` (the replacement character U+FFFD). -/
def hasReplacementChar (s : String) : Bool :=
  s.data.any (fun c => c = Char.ofNat 0xFFFD)

/-- Helper for `hasHyphenBreak`: does the character list contain a hyphen
immediately followed by a newline? -/
def hyphenBreakAux : List Char → Bool
  | c1 :: c2 :: rest => (c1 = '-' && c2 = '\n') || hyphenBreakAux (c2 :: rest)
  | _ => false

/-- Presence test for the regex `-\n` (hyphen immediately followed by a
newline), as used by `re.search`. -/
def hasHyphenBreak (s : String) : Bool :=
  hyphenBreakAux s.data

/-- One printed line of the cleanliness report: one constructor per `print`
call in `validate_docs`, carrying the data interpolated into the text. -/
inductive Line where
  /-- Line 74: the opening banner. -/
  | banner
  /-- Line 77: `[WARN] No documents loaded; nothing to validate.` -/
  | warnNoDocs
  /-- Line 87: `[STATS] Chunk length (characters)`. -/
  | statsHeader
  /-- Line 88: the document count. -/
  | statCount (n : Nat)
  /-- Line 89: minimum length. -/
  | statMin (n : Nat)
  /-- Line 90: maximum length. -/
  | statMax (n : Nat)
  /-- Line 91: mean length (float, modelled exactly as a rational). -/
  | statAvg (q : ℚ)
  /-- Line 92: median length (float, modelled exactly as a rational). -/
  | statMedian (q : ℚ)
  /-- Lines 99-100: `[WARN] ... very short (< 50 chars)` with count and the
  first ten flagged indices. -/
  | warnVeryShort (n : Nat) (ex : List Nat)
  /-- Lines 102-103: `[WARN] ... very long (> 8000 chars)`. -/
  | warnVeryLong (n : Nat) (ex : List Nat)
  /-- Line 106: `[DUPLICATES] Checking for repeated chunks ...`. -/
  | dupHeader
  /-- Line 111: `No highly repeated chunks found (good).` -/
  | noDuplicates
  /-- Line 113: `Found {n} chunk texts that repeat > 3 times.` -/
  | foundDuplicates (n : Nat)
  /-- Line 114: the headers/footers boilerplate hint. -/
  | boilerplateNote
  /-- Line 118: `#{i} repeat_count={c} preview='{p}...'`. -/
  | dupEntry (i : Nat) (c : Nat) (p : String)
  /-- Line 121: `[ENTROPY] Checking for low-entropy ... chunks...`. -/
  | entropyHeader
  /-- Lines 126-127: low-entropy count and first ten flagged indices. -/
  | lowEntropyWarn (n : Nat) (ex : List Nat)
  /-- Line 129: `No obviously low-entropy chunks detected.` -/
  | noLowEntropy
  /-- Line 132: `[CHARS] Checking for weird / non-ASCII / OCR characters...`. -/
  | charsHeader
  /-- Line 155: ligature warning with document count. -/
  | warnLigature (n : Nat)
  /-- Line 157: replacement-character warning with document count. -/
  | warnReplacement (n : Nat)
  /-- Line 159: hyphen line-break warning with document count. -/
  | warnHyphenBreak (n : Nat)
  /-- Line 161: non-ASCII-heavy warning with document count. -/
  | warnNonAsciiHeavy (n : Nat)
  /-- Line 164: `No major weird-character issues detected.` -/
  | noWeirdChars
  /-- Line 167: `[STRUCTURE] Checking newline and punctuation patterns...`. -/
  | structureHeader
  /-- Lines 173-174: many-newlines warning with count and first ten indices. -/
  | warnHighNewlines (n : Nat) (ex : List Nat)
  /-- Lines 183-184: long-but-unpunctuated warning with count and first ten
  indices. -/
  | warnLowPunct (n : Nat) (ex : List Nat)
  /-- Line 186: `Punctuation patterns look normal for most chunks.` -/
  | punctNormal
  /-- Lines 191-192: `[WARN] ... empty or near-empty (< 5 chars)` with count
  and first ten indices. -/
  | warnEmptyNearEmpty (n : Nat) (ex : List Nat)
  /-- Line 194: the closing banner. -/
  | complete
  /-- Line 195: `Interpretation:`. -/
  | interpretation
  /-- Lines 196-199: the four static interpretation bullets, numbered 1-4. -/
  | interpNote (k : Nat)
deriving DecidableEq

/-- Report section a line belongs to, numbered by the specification's stage
list: 0 banner/empty-collection warning, 1 length statistics, 2 duplicate
detection, 3 entropy scan, 4 character-artifact scan, 5 structural scan,
6 the empty/near-empty flag, 7 the closing interpretation note. -/
def Line.stage : Line → Nat
  | .banner => 0
  | .warnNoDocs => 0
  | .statsHeader => 1
  | .statCount _ => 1
  | .statMin _ => 1
  | .statMax _ => 1
  | .statAvg _ => 1
  | .statMedian _ => 1
  | .warnVeryShort _ _ => 1
  | .warnVeryLong _ _ => 1
  | .dupHeader => 2
  | .noDuplicates => 2
  | .foundDuplicates _ => 2
  | .boilerplateNote => 2
  | .dupEntry _ _ _ => 2
  | .entropyHeader => 3
  | .lowEntropyWarn _ _ => 3
  | .noLowEntropy => 3
  | .charsHeader => 4
  | .warnLigature _ => 4
  | .warnReplacement _ => 4
  | .warnHyphenBreak _ => 4
  | .warnNonAsciiHeavy _ => 4
  | .noWeirdChars => 4
  | .structureHeader => 5
  | .warnHighNewlines _ _ => 5
  | .warnLowPunct _ _ => 5
  | .punctNormal => 5
  | .warnEmptyNearEmpty _ _ => 6
  | .complete => 7
  | .interpretation => 7
  | .interpNote _ => 7

/-- Is this printed line one of the `[WARN]`-prefixed lines? -/
def Line.isWarn : Line → Bool
  | .warnNoDocs => true
  | .warnVeryShort _ _ => true
  | .warnVeryLong _ _ => true
  | .warnLigature _ => true
  | .warnReplacement _ => true
  | .warnHyphenBreak _ => true
  | .warnNonAsciiHeavy _ => true
  | .warnHighNewlines _ _ => true
  | .warnLowPunct _ _ => true
  | .warnEmptyNearEmpty _ _ => true
  | _ => false

/-- Is this printed line part of the `[STATS]` block (lines 87-92)? -/
def Line.isStat : Line → Bool
  | .statsHeader => true
  | .statCount _ => true
  | .statMin _ => true
  | .statMax _ => true
  | .statAvg _ => true
  | .statMedian _ => true
  | _ => false

/-- Is this line the empty/near-empty flag (lines 191-192)? -/
def Line.isEmptyFlag : Line → Bool
  | .warnEmptyNearEmpty _ _ => true
  | _ => false

/-- Source line 81: `lengths = [len(d.page_content or "") for d in docs]`. -/
def lengthsOf (docs : List Document) : List Nat :=
  docs.map (fun d => (contentOrEmpty d).data.length)

/-- The value of Python's `statistics.median` on a list of naturals, as an
exact rational: middle element of the sorted list, or the mean of the two
middle elements for even length.  Only called on non-empty lists (the
Python function raises on empty input; `validate_docs` guards that). -/
def medianQ (l : List Nat) : ℚ :=
  let s := stableSort (fun a b => a ≤ b) l
  let n := s.length
  if n % 2 = 1 then (s.getD (n / 2) 0 : ℚ)
  else ((s.getD (n / 2 - 1) 0 : ℚ) + (s.getD (n / 2) 0 : ℚ)) / 2

/-- Source line 95: indices with length below 50. -/
def very_short (docs : List Document) : List Nat :=
  (((lengthsOf docs).enum).filter (fun p => p.2 < 50)).map Prod.fst

/-- Source line 96: indices with length above 8000. -/
def very_long (docs : List Document) : List Nat :=
  (((lengthsOf docs).enum).filter (fun p => 8000 < p.2)).map Prod.fst

/-- Stage 1 of `validate_docs` (lines 80-103): the `[STATS]` block plus the
very-short / very-long warnings. -/
def statsSection (docs : List Document) : List Line :=
  let lengths := lengthsOf docs
  [Line.statsHeader, Line.statCount docs.length,
   Line.statMin ((lengths.min?).getD 0), Line.statMax ((lengths.max?).getD 0),
   Line.statAvg ((lengths.sum : ℚ) / (lengths.length : ℚ)),
   Line.statMedian (medianQ lengths)]
  ++ (if very_short docs = [] then []
      else [Line.warnVeryShort (very_short docs).length ((very_short docs).take 10)])
  ++ (if very_long docs = [] then []
      else [Line.warnVeryLong (very_long docs).length ((very_long docs).take 10)])

/-- Source line 107: `content_counts = Counter(d.page_content for d in docs)`.
Note the raw `d.page_content`, without the `or ""` guard used everywhere
else: absent contents are counted under the `none` key. -/
def content_counts (docs : List Document) : List (Option String × Nat) :=
  let keys := docs.map (fun d => d.page_content)
  (firstDedup keys).map (fun k => (k, keys.count k))

/-- Source line 108: the content strings occurring more than three times,
with their occurrence counts. -/
def repeatedCounts (docs : List Document) : List (Option String × Nat) :=
  (content_counts docs).filter (fun p => 3 < p.2)

/-- Source line 117: `txt.replace("\n", " ")[:120]`. -/
def previewOf (txt : String) : String :=
  String.mk (((txt.data).map (fun ch => if ch = '\n' then ' ' else ch)).take 120)

/-- Source line 116: the repeated contents sorted descending by count
(Python's stable `sorted` with key `-count`), truncated to the top five. -/
def dupTop (docs : List Document) : List (Option String × Nat) :=
  (stableSort (fun a b => b.2 ≤ a.2) (repeatedCounts docs)).take 5

/-- Source lines 116-118: the duplicate example lines, numbered from 1.  A
`none` content reaches `txt.replace` and raises `AttributeError`; the lines
already produced are kept and the error is reported alongside. -/
def dupEntryLines : Nat → List (Option String × Nat) → List Line × Option PyError
  | _, [] => ([], none)
  | _, (none, _) :: _ => ([], some PyError.attributeError)
  | i, (some txt, c) :: rest =>
      let r := dupEntryLines (i + 1) rest
      (Line.dupEntry i c (previewOf txt) :: r.1, r.2)

/-- Stage 2 of `validate_docs` (lines 105-118): duplicate-content detection. -/
def duplicatesSection (docs : List Document) : List Line × Option PyError :=
  if repeatedCounts docs = [] then ([Line.dupHeader, Line.noDuplicates], none)
  else
    let r := dupEntryLines 1 (dupTop docs)
    (Line.dupHeader :: Line.foundDuplicates (repeatedCounts docs).length ::
       Line.boilerplateNote :: r.1, r.2)

/-- Source lines 122-123: indices whose entropy `e` passes
`e > 0 and e < 2.5`, via the exact characterization `lowEntropyB` of that
float test (see `lowEntropyB_iff_entropy`). -/
def low_entropy_indices (docs : List Document) : List Nat :=
  (((docs.map (fun d => contentOrEmpty d)).enum).filter (fun p => lowEntropyB p.2)).map Prod.fst

/-- Stage 3 of `validate_docs` (lines 120-129): the entropy scan. -/
def entropySection (docs : List Document) : List Line :=
  let lei := low_entropy_indices docs
  Line.entropyHeader ::
    (if lei = [] then [Line.noLowEntropy]
     else [Line.lowEntropyWarn lei.length (lei.take 10)])

/-- Source lines 143-146: number of documents containing a ligature. -/
def ligature_hits (docs : List Document) : Nat :=
  docs.countP (fun d => hasLigature (contentOrEmpty d))

/-- Source lines 143-147: number of documents containing the replacement
character. -/
def replacement_hits (docs : List Document) : Nat :=
  docs.countP (fun d => hasReplacementChar (contentOrEmpty d))

/-- Source lines 143-150: number of documents containing a hyphen-newline
break. -/
def hyphen_break_hits (docs : List Document) : Nat :=
  docs.countP (fun d => hasHyphenBreak (contentOrEmpty d))

/-- Source lines 143-152: number of non-ASCII-heavy documents (default
threshold). -/
def non_ascii_heavy_hits (docs : List Document) : Nat :=
  docs.countP (fun d => is_non_ascii_heavy (contentOrEmpty d) NON_ASCII_DEFAULT_THRESHOLD)

/-- Stage 4 of `validate_docs` (lines 131-164): the character-artifact scan. -/
def charsSection (docs : List Document) : List Line :=
  Line.charsHeader ::
    ((if ligature_hits docs ≠ 0 then [Line.warnLigature (ligature_hits docs)] else [])
     ++ (if replacement_hits docs ≠ 0 then [Line.warnReplacement (replacement_hits docs)] else [])
     ++ (if hyphen_break_hits docs ≠ 0 then [Line.warnHyphenBreak (hyphen_break_hits docs)] else [])
     ++ (if non_ascii_heavy_hits docs ≠ 0 then [Line.warnNonAsciiHeavy (non_ascii_heavy_hits docs)] else [])
     ++ (if ligature_hits docs = 0 ∧ replacement_hits docs = 0 ∧ hyphen_break_hits docs = 0
            ∧ non_ascii_heavy_hits docs = 0
         then [Line.noWeirdChars] else []))

/-- Source lines 169-170: indices with more than thirty newlines. -/
def high_newline_indices (docs : List Document) : List Nat :=
  (((docs.map (fun d => newline_count (contentOrEmpty d))).enum).filter
      (fun p => 30 < p.2)).map Prod.fst

/-- Source lines 176-180: indices of long (length above 300) documents with
punctuation density below `0.001`. -/
def low_punct_indices (docs : List Document) : List Nat :=
  let dens := docs.map (fun d => punctuation_density (contentOrEmpty d))
  (((dens.zip (lengthsOf docs)).enum).filter
      (fun p => 300 < p.2.2 && p.2.1 < (0.001 : ℚ))).map Prod.fst

/-- Stage 5 of `validate_docs` (lines 166-186): the structural scan. -/
def structureSection (docs : List Document) : List Line :=
  Line.structureHeader ::
    ((if high_newline_indices docs = [] then []
      else [Line.warnHighNewlines (high_newline_indices docs).length
              ((high_newline_indices docs).take 10)])
     ++ (if low_punct_indices docs = [] then [Line.punctNormal]
         else [Line.warnLowPunct (low_punct_indices docs).length
                 ((low_punct_indices docs).take 10)]))

/-- Source line 189: indices with length below 5. -/
def empty_indices (docs : List Document) : List Nat :=
  (((lengthsOf docs).enum).filter (fun p => p.2 < 5)).map Prod.fst

/-- Source lines 188-192: the empty/near-empty warning, printed after the
structural scan and just before the closing note. -/
def emptySection (docs : List Document) : List Line :=
  if empty_indices docs = [] then []
  else [Line.warnEmptyNearEmpty (empty_indices docs).length ((empty_indices docs).take 10)]

/-- Source lines 194-199: the closing banner and the fixed interpretation
text. -/
def closingSection : List Line :=
  [Line.complete, Line.interpretation,
   Line.interpNote 1, Line.interpNote 2, Line.interpNote 3, Line.interpNote 4]

/-- Result of one `validate_docs` run: the document collection as the
function leaves it, the printed lines, and the exception terminating the
run, if any (the lines are those printed before the exception). -/
structure RunResult where
  finalDocs : List Document
  output : List Line
  error : Option PyError
deriving DecidableEq

unseal Rat.mul Rat.inv Rat.add Rat.sub Rat.ofScientific

/-- Source `validate_docs` (lines 68-199): the full report pass.  The
collection is returned unchanged (the source only ever reads from the
documents); the output is the concatenation of the stage sections, cut
short when the duplicate stage raises. -/
def validate_docs (docs : List Document) : RunResult :=
  if docs = [] then ⟨docs, [Line.banner, Line.warnNoDocs], none⟩
  else
    let dup := duplicatesSection docs
    match dup.2 with
    | some e => ⟨docs, Line.banner :: (statsSection docs ++ dup.1), some e⟩
    | none =>
        ⟨docs, Line.banner :: (statsSection docs ++ dup.1 ++ entropySection docs
           ++ charsSection docs ++ structureSection docs ++ emptySection docs
           ++ closingSection), none⟩

/-! Concrete example collections used to exercise the claims on closed
inputs. -/

/-- Four documents whose `content` field is absent (`None`). -/
def noneContentDocs : List Document :=
  List.replicate 4 ⟨none, []⟩

/-- A single two-character document: short enough to trip the very-short and
empty/near-empty flags, two distinct characters so the entropy scan flags it
(`H = 1`). -/
def shortDoc : Document :=
  ⟨some "ab", []⟩

/-- Ten documents, one text repeated exactly five times, five further
distinct texts (the repetition scenario of the specification). -/
def dupDocs10 : List Document :=
  List.replicate 5 ⟨some "dup", []⟩ ++
    ["v", "w", "x", "y", "z"].map (fun s => ⟨some s, []⟩)

/-- A document of three identical characters (maximally repetitive text). -/
def repDoc : Document :=
  ⟨some "aaa", []⟩

/-- One plain ASCII document that trips none of the four character
detectors. -/
def plainDocs : List Document :=
  [⟨some "plain text", []⟩]

/-! Helper lemmas about `firstDedup`, `stableSort` and the
`enumerate`-filter-map index pattern. -/

theorem mem_firstDedupAux {α : Type} [DecidableEq α] {a : α} :
    ∀ {l seen : List α}, a ∈ firstDedupAux seen l ↔ a ∈ l ∧ a ∉ seen := by
  intro l
  induction l with
  | nil => intro seen; simp [firstDedupAux]
  | cons b l ih =>
      intro seen
      simp only [firstDedupAux]
      split
      · rename_i hb
        rw [ih]
        by_cases hab : a = b
        · subst hab; simp [hb]
        · simp [hab]
      · rename_i hb
        by_cases hab : a = b
        · subst hab; simp [hb]
        · simp only [List.mem_cons, ih, List.mem_cons]
          constructor
          · rintro (rfl | ⟨h1, h2⟩)
            · exact absurd rfl hab
            · exact ⟨Or.inr h1, fun hs => h2 (Or.inr hs)⟩
          · rintro ⟨rfl | h1, h2⟩
            · exact absurd rfl hab
            · exact Or.inr ⟨h1, fun hs => hs.elim hab h2⟩

theorem mem_firstDedup {α : Type} [DecidableEq α] {a : α} {l : List α} :
    a ∈ firstDedup l ↔ a ∈ l := by
  simp [firstDedup, mem_firstDedupAux]

theorem nodup_firstDedupAux {α : Type} [DecidableEq α] :
    ∀ (l seen : List α), (firstDedupAux seen l).Nodup := by
  intro l
  induction l with
  | nil => intro seen; simp [firstDedupAux]
  | cons b l ih =>
      intro seen
      simp only [firstDedupAux]
      split
      · exact ih seen
      · refine List.Pairwise.cons ?_ (ih (b :: seen))
        intro x hx hxb
        subst hxb
        exact (mem_firstDedupAux.mp hx).2 (List.mem_cons_self _ _)

theorem nodup_firstDedup {α : Type} [DecidableEq α] (l : List α) :
    (firstDedup l).Nodup :=
  nodup_firstDedupAux l []

theorem firstDedup_perm_dedup {α : Type} [DecidableEq α] (l : List α) :
    (firstDedup l).Perm l.dedup := by
  rw [List.perm_ext_iff_of_nodup (nodup_firstDedup l) (List.nodup_dedup l)]
  intro a
  rw [mem_firstDedup, List.mem_dedup]

theorem sum_counts_firstDedup {α : Type} [DecidableEq α] (l : List α) :
    (((firstDedup l).map (fun a => l.count a)).sum) = l.length := by
  have h := (firstDedup_perm_dedup l).map (fun a => l.count a)
  rw [h.sum_eq]
  exact List.sum_map_count_dedup_eq_length l

theorem firstDedupAux_eq_nil {α : Type} [DecidableEq α] :
    ∀ {l seen : List α}, (∀ x ∈ l, x ∈ seen) → firstDedupAux seen l = [] := by
  intro l
  induction l with
  | nil => intro seen _; rfl
  | cons b l ih =>
      intro seen h
      simp only [firstDedupAux, h b (List.mem_cons_self _ _), if_true]
      exact ih (fun x hx => h x (List.mem_cons_of_mem _ hx))

theorem firstDedup_replicate {α : Type} [DecidableEq α] (c : α) {n : ℕ} (hn : 0 < n) :
    firstDedup (List.replicate n c) = [c] := by
  obtain ⟨m, rfl⟩ := Nat.exists_eq_add_of_lt hn
  rw [Nat.zero_add, List.replicate_succ]
  show firstDedupAux [] (c :: List.replicate m c) = [c]
  simp only [firstDedupAux, List.not_mem_nil, if_neg (fun h => h)]
  rw [firstDedupAux_eq_nil]
  intro x hx
  rw [List.eq_of_mem_replicate hx]
  exact List.mem_cons_self _ _

theorem mem_stableInsert {α : Type} (le : α → α → Bool) (a x : α) :
    ∀ (l : List α), x ∈ stableInsert le a l ↔ x = a ∨ x ∈ l := by
  intro l
  induction l with
  | nil => simp [stableInsert]
  | cons b l ih =>
      simp only [stableInsert]
      split
      · simp [List.mem_cons]
      · simp only [List.mem_cons, ih]
        tauto

theorem pairwise_stableInsert {α : Type} (le : α → α → Bool)
    (htrans : ∀ a b c, le a b = true → le b c = true → le a c = true)
    (htot : ∀ a b, (le a b || le b a) = true) (a : α) :
    ∀ (l : List α), l.Pairwise (fun x y => le x y = true) →
      (stableInsert le a l).Pairwise (fun x y => le x y = true) := by
  intro l
  induction l with
  | nil => intro _; simp [stableInsert]
  | cons b l ih =>
      intro h
      rw [List.pairwise_cons] at h
      simp only [stableInsert]
      split
      · rename_i hab
        refine List.Pairwise.cons ?_ (List.Pairwise.cons h.1 h.2)
        intro x hx
        rcases List.mem_cons.mp hx with rfl | hx
        · exact hab
        · exact htrans a b x hab (h.1 x hx)
      · rename_i hab
        refine List.Pairwise.cons ?_ (ih h.2)
        intro x hx
        rcases (mem_stableInsert le a x l).mp hx with rfl | hx
        · have := htot x b
          rw [Bool.or_eq_true] at this
          rcases this with h1 | h1
          · exact absurd h1 hab
          · exact h1
        · exact h.1 x hx

theorem pairwise_stableSort {α : Type} (le : α → α → Bool)
    (htrans : ∀ a b c, le a b = true → le b c = true → le a c = true)
    (htot : ∀ a b, (le a b || le b a) = true) :
    ∀ (l : List α), (stableSort le l).Pairwise (fun x y => le x y = true) := by
  intro l
  induction l with
  | nil => exact List.Pairwise.nil
  | cons a l ih => exact pairwise_stableInsert le htrans htot a _ ih

theorem mem_enum_iff {α : Type} {l : List α} {i : ℕ} {x : α} :
    (i, x) ∈ l.enum ↔ ∃ h : i < l.length, l.get ⟨i, h⟩ = x := by
  constructor
  · intro h
    obtain ⟨h1, h2⟩ := List.mem_enum h
    exact ⟨h1, h2.symm⟩
  · rintro ⟨h, rfl⟩
    have hlen : i < l.enum.length := by rw [List.enum_length]; exact h
    have hval : l.enum.get ⟨i, hlen⟩ = (i, l.get ⟨i, h⟩) := by
      simp [List.get_eq_getElem, List.getElem_enum]
    rw [← hval]
    exact List.get_mem _ _ _

theorem mem_idxWhere {α : Type} (f : α → Bool) (l : List α) (i : ℕ) :
    i ∈ ((l.enum.filter (fun p => f p.2)).map Prod.fst) ↔
      ∃ h : i < l.length, f (l.get ⟨i, h⟩) = true := by
  simp only [List.mem_map, List.mem_filter]
  constructor
  · rintro ⟨⟨j, x⟩, ⟨hmem, hf⟩, rfl⟩
    obtain ⟨h, hx⟩ := mem_enum_iff.mp hmem
    exact ⟨h, by rw [hx]; exact hf⟩
  · rintro ⟨h, hf⟩
    exact ⟨(i, l.get ⟨i, h⟩), ⟨mem_enum_iff.mpr ⟨h, rfl⟩, hf⟩, rfl⟩

theorem pairwise_lt_enumFrom {α : Type} :
    ∀ (l : List α) (k : ℕ), (List.enumFrom k l).Pairwise (fun p q => p.1 < q.1) := by
  intro l
  induction l with
  | nil => intro k; exact List.Pairwise.nil
  | cons a l ih =>
      intro k
      rw [List.enumFrom_cons]
      refine List.Pairwise.cons ?_ (ih (k + 1))
      intro q hq
      have := (List.mem_enumFrom hq).1
      omega

theorem sorted_idxWhere {α : Type} (f : α → Bool) (l : List α) :
    ((l.enum.filter (fun p => f p.2)).map Prod.fst).Pairwise (· < ·) := by
  rw [List.pairwise_map]
  exact ((pairwise_lt_enumFrom l 0).sublist (List.filter_sublist _))

/-! Entropy lemmas: the real-valued `shannon_entropy` against the decidable
test `lowEntropyB`. -/

theorem countsOf_pos {α : Type} [DecidableEq α] (l : List α) :
    ∀ c ∈ countsOf l, 0 < c := by
  intro c hc
  obtain ⟨a, ha, rfl⟩ := List.mem_map.mp hc
  exact List.count_pos_iff.mpr (mem_firstDedup.mp ha)

theorem countsOf_le_length {α : Type} [DecidableEq α] (l : List α) :
    ∀ c ∈ countsOf l, c ≤ l.length := by
  intro c hc
  obtain ⟨a, _, rfl⟩ := List.mem_map.mp hc
  exact List.count_le_length a l

theorem countsOf_sum {α : Type} [DecidableEq α] (l : List α) :
    (countsOf l).sum = l.length :=
  sum_counts_firstDedup l

theorem countsPowProd_pos (l : List Char) : 0 < countsPowProd l := by
  refine List.prod_pos ?_
  intro a ha
  obtain ⟨c, hc, rfl⟩ := List.mem_map.mp ha
  have := countsOf_pos l c hc
  exact pow_pos this c

theorem sum_count_logb {n : ℕ} (hn : 0 < n) :
    ∀ (cs : List ℕ), (∀ c ∈ cs, 0 < c) →
      ((cs.map (fun (c : ℕ) => ((c : ℝ) / (n : ℝ)) * Real.logb 2 ((c : ℝ) / (n : ℝ)))).sum) * (n : ℝ)
        = Real.logb 2 (((cs.map (fun c => c ^ c)).prod : ℕ) : ℝ)
            - ((cs.sum : ℕ) : ℝ) * Real.logb 2 (n : ℝ) := by
  intro cs
  induction cs with
  | nil => simp
  | cons c cs ih =>
      intro hpos
      have hc : 0 < c := hpos c (List.mem_cons_self _ _)
      have ihs := ih (fun x hx => hpos x (List.mem_cons_of_mem _ hx))
      have hcR : (c : ℝ) ≠ 0 := Nat.cast_ne_zero.mpr hc.ne'
      have hnR : (n : ℝ) ≠ 0 := Nat.cast_ne_zero.mpr hn.ne'
      have hP : 0 < (cs.map (fun c => c ^ c)).prod := by
        refine List.prod_pos ?_
        intro a ha
        obtain ⟨x, hx, rfl⟩ := List.mem_map.mp ha
        exact pow_pos (hpos x (List.mem_cons_of_mem _ hx)) x
      have hPR : (((cs.map (fun c => c ^ c)).prod : ℕ) : ℝ) ≠ 0 :=
        Nat.cast_ne_zero.mpr hP.ne'
      simp only [List.map_cons, List.sum_cons, List.prod_cons]
      rw [add_mul, ihs, Real.logb_div hcR hnR, Nat.cast_mul, Nat.cast_pow,
        Real.logb_mul (pow_ne_zero _ hcR) hPR, Real.logb_pow, Nat.cast_add]
      have hfact : ((c : ℝ) / (n : ℝ)) * (Real.logb 2 (c : ℝ) - Real.logb 2 (n : ℝ)) * (n : ℝ)
          = (c : ℝ) * (Real.logb 2 (c : ℝ) - Real.logb 2 (n : ℝ)) := by
        field_simp
      rw [hfact]
      ring

theorem shannon_entropy_mul_length (l : List Char) (hl : l ≠ []) :
    shannon_entropy (String.mk l) * (l.length : ℝ)
      = Real.logb 2 ((l.length ^ l.length : ℕ) : ℝ)
        - Real.logb 2 ((countsPowProd l : ℕ) : ℝ) := by
  have hn : 0 < l.length := List.length_pos.mpr hl
  have hnR : (0 : ℝ) < (l.length : ℝ) := by exact_mod_cast hn
  unfold shannon_entropy
  simp only [String.mk, if_neg hl]
  have hfilter :
      (((countsOf l).map (fun (count : ℕ) => (count : ℝ) / (l.length : ℝ))).filter
          (fun p => decide (0 < p)))
        = (countsOf l).map (fun (count : ℕ) => (count : ℝ) / (l.length : ℝ)) := by
    refine List.filter_eq_self.mpr ?_
    intro p hp
    obtain ⟨c, hc, rfl⟩ := List.mem_map.mp hp
    have : (0 : ℝ) < (c : ℝ) / (l.length : ℝ) := by
      apply div_pos _ hnR
      exact_mod_cast countsOf_pos l c hc
    exact decide_eq_true this
  rw [hfilter, List.map_map]
  have hkey := sum_count_logb hn (countsOf l) (countsOf_pos l)
  have hcomp :
      ((countsOf l).map
          ((fun p => p * Real.logb 2 p) ∘ fun (count : ℕ) => (count : ℝ) / (l.length : ℝ)))
        = (countsOf l).map
            (fun (c : ℕ) => ((c : ℝ) / (l.length : ℝ)) * Real.logb 2 ((c : ℝ) / (l.length : ℝ))) := by
    rfl
  rw [hcomp, neg_mul, hkey, countsOf_sum]
  push_cast [countsPowProd]
  rw [Real.logb_pow]
  ring

theorem shannon_entropy_eq_div (l : List Char) (hl : l ≠ []) :
    shannon_entropy (String.mk l)
      = (Real.logb 2 ((l.length ^ l.length : ℕ) : ℝ)
          - Real.logb 2 ((countsPowProd l : ℕ) : ℝ)) / (l.length : ℝ) := by
  have hn : 0 < l.length := List.length_pos.mpr hl
  have hnR : ((l.length : ℝ)) ≠ 0 := Nat.cast_ne_zero.mpr hn.ne'
  rw [eq_div_iff hnR]
  exact shannon_entropy_mul_length l hl

theorem list_sum_nonpos {l : List ℝ} (h : ∀ x ∈ l, x ≤ 0) : l.sum ≤ 0 := by
  induction l with
  | nil => simp
  | cons a l ih =>
      simp only [List.sum_cons]
      have h1 := h a (List.mem_cons_self _ _)
      have h2 := ih (fun x hx => h x (List.mem_cons_of_mem _ hx))
      linarith

theorem shannon_entropy_empty : shannon_entropy "" = 0 := by
  simp [shannon_entropy]

theorem shannon_entropy_nonneg (T : String) : 0 ≤ shannon_entropy T := by
  by_cases hT : T.data = []
  · simp [shannon_entropy, hT]
  · have hn : 0 < T.data.length := List.length_pos.mpr hT
    have hnR : (0 : ℝ) < (T.data.length : ℝ) := by exact_mod_cast hn
    simp only [shannon_entropy, if_neg hT]
    rw [neg_nonneg]
    refine list_sum_nonpos ?_
    intro x hx
    obtain ⟨p, hpf, rfl⟩ := List.mem_map.mp hx
    obtain ⟨hpmem, hpdec⟩ := List.mem_filter.mp hpf
    have hp : 0 < p := of_decide_eq_true hpdec
    obtain ⟨c, hc, rfl⟩ := List.mem_map.mp hpmem
    have hp1 : (c : ℝ) / (T.data.length : ℝ) ≤ 1 := by
      rw [div_le_one hnR]
      exact_mod_cast countsOf_le_length T.data c hc
    have hlogb : Real.logb 2 ((c : ℝ) / (T.data.length : ℝ)) ≤ 0 :=
      Real.logb_nonpos (by norm_num) hp.le hp1
    exact mul_nonpos_iff.mpr (Or.inl ⟨hp.le, hlogb⟩)

theorem countsOf_replicate {n : ℕ} (c : Char) (hn : 0 < n) :
    countsOf (List.replicate n c) = [n] := by
  unfold countsOf
  rw [firstDedup_replicate c hn]
  simp [List.count_replicate_self]

theorem shannon_entropy_replicate {n : ℕ} (c : Char) (hn : 0 < n) :
    shannon_entropy (String.mk (List.replicate n c)) = 0 := by
  have hne : List.replicate n c ≠ [] := by
    simp only [ne_eq, List.replicate_eq_nil_iff]
    omega
  have hnR : ((n : ℝ)) ≠ 0 := Nat.cast_ne_zero.mpr hn.ne'
  simp only [shannon_entropy, String.mk, if_neg hne, countsOf_replicate c hn,
    List.length_replicate, List.map_cons, List.map_nil]
  rw [div_self hnR]
  norm_num [Real.logb_one]

theorem lowEntropyB_iff_entropy (s : String) :
    lowEntropyB s = true ↔ 0 < shannon_entropy s ∧ shannon_entropy s < 5 / 2 := by
  obtain ⟨l⟩ := s
  by_cases hl : l = []
  · subst hl
    have h0 : shannon_entropy (String.mk []) = 0 := by simp [shannon_entropy]
    have hb : lowEntropyB (String.mk []) = false := by
      simp [lowEntropyB, countsPowProd, countsOf, firstDedup, firstDedupAux]
    rw [hb, h0]
    norm_num
  · have hn : 0 < l.length := List.length_pos.mpr hl
    have hnR : (0 : ℝ) < (l.length : ℝ) := by exact_mod_cast hn
    have hP : 0 < countsPowProd l := countsPowProd_pos l
    have hPR : (0 : ℝ) < ((countsPowProd l : ℕ) : ℝ) := by exact_mod_cast hP
    have hN : 0 < l.length ^ l.length := pow_pos hn _
    have hNR : (0 : ℝ) < ((l.length ^ l.length : ℕ) : ℝ) := by exact_mod_cast hN
    have hdiv := shannon_entropy_eq_div l hl
    have hiff1 : countsPowProd l < l.length ^ l.length ↔
        0 < shannon_entropy (String.mk l) := by
      rw [hdiv, lt_div_iff hnR, zero_mul, sub_pos,
        Real.logb_lt_logb_iff (by norm_num) hPR hNR, Nat.cast_lt]
    have e1 : Real.logb 2 (((l.length ^ l.length) ^ 2 : ℕ) : ℝ)
        = 2 * Real.logb 2 ((l.length ^ l.length : ℕ) : ℝ) := by
      push_cast
      rw [← Nat.cast_pow, Real.logb_pow]
      norm_num
    have e2 : Real.logb 2 ((2 ^ (5 * l.length) * countsPowProd l ^ 2 : ℕ) : ℝ)
        = 5 * (l.length : ℝ) + 2 * Real.logb 2 ((countsPowProd l : ℕ) : ℝ) := by
      push_cast
      rw [Real.logb_mul (by positivity) (by positivity), Real.logb_pow, Real.logb_pow,
        Real.logb_self_eq_one (by norm_num)]
      push_cast
      ring
    have hiff2 : (l.length ^ l.length) ^ 2 < 2 ^ (5 * l.length) * countsPowProd l ^ 2 ↔
        shannon_entropy (String.mk l) < 5 / 2 := by
      rw [hdiv, div_lt_iff hnR]
      rw [← @Nat.cast_lt ℝ]
      rw [← @Real.logb_lt_logb_iff 2 _ _ (by norm_num) (by positivity) (by positivity)]
      rw [e1, e2]
      constructor
      · intro h; linarith
      · intro h; linarith
    show (decide (countsPowProd l < l.length ^ l.length)
        && decide ((l.length ^ l.length) ^ 2 < 2 ^ (5 * l.length) * countsPowProd l ^ 2)) = true
          ↔ _
    rw [Bool.and_eq_true, decide_eq_true_eq, decide_eq_true_eq, hiff1, hiff2]

/-! Claim theorems. -/

/-- C3: given an empty collection, `validate_docs` emits exactly one warning
line (after the opening banner), computes and prints no statistics, and
returns without raising an error. -/
theorem C3_empty_collection :
    validate_docs [] = ⟨[], [Line.banner, Line.warnNoDocs], none⟩ ∧
    ((validate_docs []).output.countP Line.isWarn) = 1 ∧
    ((validate_docs []).output.countP Line.isStat) = 0 ∧
    (validate_docs []).error = none := by
  decide

/-- C9: `validate_docs` never mutates any document: the collection as the
run leaves it is exactly the input collection, so every document's content
and metadata are unchanged. -/
theorem C9_no_mutation (docs : List Document) :
    (validate_docs docs).finalDocs = docs := by
  simp only [validate_docs]
  split
  · rfl
  · split <;> rfl

/-- C1: the claim fails on the code.  On four documents with absent
(`None`) content, the duplicate-detection stage groups them under the
`None` key (not under `""`), and the preview computation
`txt.replace("\n", " ")` raises `AttributeError` because `txt` is `None`:
`validate_docs` does not treat absent content as `""` in every stage and
does raise. -/
theorem C1_none_content_crashes :
    (validate_docs noneContentDocs).error = some PyError.attributeError ∧
    repeatedCounts noneContentDocs = [(none, 4)] := by
  decide

/-- C7: `is_non_ascii_heavy` is false on the empty string for every
threshold; on the content `"café naïve"` (10 characters, 2 of them
non-ASCII) it is true at threshold `0.05` and false at threshold `0.5`. -/
theorem C7_non_ascii_heavy :
    (∀ t : ℚ, is_non_ascii_heavy "" t = false) ∧
    is_non_ascii_heavy "café naïve" (0.05 : ℚ) = true ∧
    is_non_ascii_heavy "café naïve" (0.5 : ℚ) = false := by
  refine ⟨?_, by decide, by decide⟩
  intro t
  rfl

/-- C4: `shannon_entropy "" = 0`, entropy is nonnegative on every text, and
on every non-empty text made of one repeated character it is exactly 0. -/
theorem C4_entropy_properties :
    shannon_entropy "" = 0 ∧
    (∀ T : String, 0 ≤ shannon_entropy T) ∧
    (∀ (n : ℕ) (c : Char), 0 < n →
        shannon_entropy (String.mk (List.replicate n c)) = 0) :=
  ⟨shannon_entropy_empty, shannon_entropy_nonneg,
    fun _ c hn => shannon_entropy_replicate c hn⟩

/-- Witness for C4 at the concrete input `"aaa"` (three repeated
characters). -/
theorem C4_entropy_properties_witness :
    0 < 3 ∧ shannon_entropy (String.mk (List.replicate 3 'a')) = 0 :=
  ⟨by norm_num, C4_entropy_properties.2.2 3 'a' (by norm_num)⟩

theorem lowEntropyB_replicate {n : ℕ} (c : Char) (hn : 0 < n) :
    lowEntropyB (String.mk (List.replicate n c)) = false := by
  simp only [lowEntropyB, String.mk, countsPowProd, countsOf_replicate c hn,
    List.length_replicate, List.map_cons, List.map_nil, List.prod_cons, List.prod_nil,
    mul_one]
  simp [lt_irrefl]

/-- C10: a non-empty document consisting of one repeated character is never
flagged by the entropy scan: its entropy is exactly 0 and the flag requires
strictly positive entropy. -/
theorem C10_repeated_char_not_flagged (docs : List Document) (i : ℕ)
    (h : i < docs.length) (n : ℕ) (c : Char) (hn : 0 < n)
    (hcontent : (docs.get ⟨i, h⟩).page_content
        = some (String.mk (List.replicate n c))) :
    i ∉ low_entropy_indices docs := by
  intro hmem
  unfold low_entropy_indices at hmem
  obtain ⟨hlen, hf⟩ := (mem_idxWhere _ _ _).mp hmem
  have hget : (docs.map (fun d => contentOrEmpty d)).get ⟨i, hlen⟩
      = contentOrEmpty (docs.get ⟨i, h⟩) := by
    simp [List.get_eq_getElem, List.getElem_map]
  rw [hget] at hf
  have hco : contentOrEmpty (docs.get ⟨i, h⟩) = String.mk (List.replicate n c) := by
    unfold contentOrEmpty
    rw [hcontent]
    rfl
  rw [hco, lowEntropyB_replicate c hn] at hf
  exact Bool.false_ne_true hf

/-- Witness for C10 at the concrete collection `[repDoc]` with content
`"aaa"`. -/
theorem C10_repeated_char_not_flagged_witness :
    0 ∉ low_entropy_indices [repDoc] :=
  C10_repeated_char_not_flagged [repDoc] 0 (by decide) 3 'a' (by decide) (by decide)

/-- C6: the entropy scan flags exactly the indices whose entropy `e`
satisfies `0 < e < 2.5` (entropy-zero documents, such as empty ones, are
not flagged), the flagged list is in collection order, and the stage
reports the count of flagged documents with the first ten flagged
indices. -/
theorem C6_entropy_scan (docs : List Document) :
    (∀ i : ℕ, i ∈ low_entropy_indices docs ↔
        ∃ h : i < docs.length,
          0 < shannon_entropy (contentOrEmpty (docs.get ⟨i, h⟩)) ∧
          shannon_entropy (contentOrEmpty (docs.get ⟨i, h⟩)) < 5 / 2) ∧
    (low_entropy_indices docs).Pairwise (· < ·) ∧
    (low_entropy_indices docs ≠ [] →
      entropySection docs = [Line.entropyHeader,
        Line.lowEntropyWarn (low_entropy_indices docs).length
          ((low_entropy_indices docs).take 10)]) ∧
    (low_entropy_indices docs = [] →
      entropySection docs = [Line.entropyHeader, Line.noLowEntropy]) := by
  refine ⟨?_, ?_, ?_, ?_⟩
  · intro i
    unfold low_entropy_indices
    rw [mem_idxWhere]
    constructor
    · rintro ⟨hlen, hf⟩
      have h : i < docs.length := by
        rw [List.length_map] at hlen
        exact hlen
      refine ⟨h, ?_⟩
      have hget : (docs.map (fun d => contentOrEmpty d)).get ⟨i, hlen⟩
          = contentOrEmpty (docs.get ⟨i, h⟩) := by
        simp [List.get_eq_getElem, List.getElem_map]
      rw [hget] at hf
      exact (lowEntropyB_iff_entropy _).mp hf
    · rintro ⟨h, hcond⟩
      have hlen : i < (docs.map (fun d => contentOrEmpty d)).length := by
        rw [List.length_map]
        exact h
      refine ⟨hlen, ?_⟩
      have hget : (docs.map (fun d => contentOrEmpty d)).get ⟨i, hlen⟩
          = contentOrEmpty (docs.get ⟨i, h⟩) := by
        simp [List.get_eq_getElem, List.getElem_map]
      rw [hget]
      exact (lowEntropyB_iff_entropy _).mpr hcond
  · unfold low_entropy_indices
    exact sorted_idxWhere _ _
  · intro hne
    simp [entropySection, hne]
  · intro heq
    simp [entropySection, heq]

/-- Witness for C6: on the collection `[shortDoc]` (content `"ab"`, entropy
exactly 1) the scan flags index 0 and the stage reports it. -/
theorem C6_entropy_scan_witness :
    entropySection [shortDoc] = [Line.entropyHeader, Line.lowEntropyWarn 1 [0]] := by
  rw [(C6_entropy_scan [shortDoc]).2.2.1 (by decide)]
  decide

theorem mem_content_counts (docs : List Document) (p : Option String × Nat) :
    p ∈ content_counts docs ↔
      p.1 ∈ docs.map (fun d => d.page_content) ∧
      p.2 = (docs.map (fun d => d.page_content)).count p.1 := by
  simp only [content_counts]
  constructor
  · intro hp
    obtain ⟨k, hk, rfl⟩ := List.mem_map.mp hp
    exact ⟨mem_firstDedup.mp hk, rfl⟩
  · rintro ⟨h1, h2⟩
    obtain ⟨k, c⟩ := p
    simp only at h1 h2
    subst h2
    exact List.mem_map.mpr ⟨k, mem_firstDedup.mpr h1, rfl⟩

theorem previewOf_length (t : String) : (previewOf t).data.length ≤ 120 := by
  simp only [previewOf]
  exact List.length_take_le _ _

theorem previewOf_no_newline (t : String) : Char.ofNat 10 ∉ (previewOf t).data := by
  simp only [previewOf]
  intro hmem
  obtain ⟨ch, _, heq⟩ := List.mem_map.mp (List.mem_of_mem_take hmem)
  by_cases h : ch = '\n'
  · rw [if_pos h] at heq
    exact absurd heq (by decide)
  · rw [if_neg h] at heq
    exact h heq

theorem dupEntryLines_preview :
    ∀ (tops : List (Option String × Nat)) (j i c : ℕ) (p : String),
      Line.dupEntry i c p ∈ (dupEntryLines j tops).1 → ∃ t, p = previewOf t := by
  intro tops
  induction tops with
  | nil => intro j i c p h; simp [dupEntryLines] at h
  | cons q rest ih =>
      intro j i c p h
      match q with
      | (none, _) => simp [dupEntryLines] at h
      | (some t, cnt) =>
          simp only [dupEntryLines] at h
          rcases List.mem_cons.mp h with heq | hmem
          · rw [Line.dupEntry.injEq] at heq
            exact ⟨t, heq.2.2⟩
          · exact ih (j + 1) i c p hmem

/-- C5: the duplicate stage reports exactly the content strings occurring
strictly more than three times, with their occurrence counts, sorted
descending by count, at most five shown, each preview cut to 120 characters
with newlines replaced; and on the ten-document collection in which one
text appears exactly five times it reports exactly one entry, with
count 5. -/
theorem C5_duplicate_detection :
    (∀ (docs : List Document) (p : Option String × Nat),
        p ∈ repeatedCounts docs ↔
          p.1 ∈ docs.map (fun d => d.page_content) ∧
          p.2 = (docs.map (fun d => d.page_content)).count p.1 ∧ 3 < p.2) ∧
    (∀ docs : List Document,
        ((dupTop docs).map Prod.snd).Pairwise (fun a b => b ≤ a)) ∧
    (∀ docs : List Document, (dupTop docs).length ≤ 5) ∧
    (∀ (docs : List Document) (i c : ℕ) (p : String),
        Line.dupEntry i c p ∈ (duplicatesSection docs).1 →
          p.data.length ≤ 120 ∧ Char.ofNat 10 ∉ p.data) ∧
    duplicatesSection dupDocs10 =
      ([Line.dupHeader, Line.foundDuplicates 1, Line.boilerplateNote,
        Line.dupEntry 1 5 "dup"], none) := by
  refine ⟨?_, ?_, ?_, ?_, by decide⟩
  · intro docs p
    simp only [repeatedCounts, List.mem_filter, mem_content_counts, decide_eq_true_eq]
    tauto
  · intro docs
    have hs := pairwise_stableSort
      (fun (a b : Option String × Nat) => decide (b.2 ≤ a.2))
      (fun a b c hab hbc => by
        rw [decide_eq_true_eq] at hab hbc ⊢
        exact le_trans hbc hab)
      (fun a b => by
        rcases le_total b.2 a.2 with h | h
        · simp [h]
        · simp [h])
      (repeatedCounts docs)
    have ht := hs.sublist (List.take_sublist 5 _)
    rw [List.pairwise_map]
    refine ht.imp ?_
    intro a b hab
    rw [decide_eq_true_eq] at hab
    exact hab
  · intro docs
    exact le_trans (List.length_take_le _ _) (le_refl 5)
  · intro docs i c p hmem
    have hpe : ∃ t, p = previewOf t := by
      simp only [duplicatesSection] at hmem
      split at hmem
      · rcases List.mem_cons.mp hmem with h | h
        · exact absurd h (by simp)
        · rcases List.mem_cons.mp h with h | h
          · exact absurd h (by simp)
          · exact absurd h (List.not_mem_nil _)
      · rcases List.mem_cons.mp hmem with h | h
        · exact absurd h (by simp)
        · rcases List.mem_cons.mp h with h2 | h2
          · exact absurd h2 (by simp)
          · rcases List.mem_cons.mp h2 with h3 | h3
            · exact absurd h3 (by simp)
            · exact dupEntryLines_preview _ 1 i c p h3
    obtain ⟨t, rfl⟩ := hpe
    exact ⟨previewOf_length t, previewOf_no_newline t⟩

/-- Witness for C5: in the ten-document collection, the pair
`("dup", 5)` is reported as repeated. -/
theorem C5_duplicate_detection_witness :
    (some "dup", 5) ∈ repeatedCounts dupDocs10 :=
  (C5_duplicate_detection.1 dupDocs10 (some "dup", 5)).mpr
    ⟨by decide, by decide, by decide⟩

/-- C8: per detector the character-artifact scan counts the documents in
which the detector trips at least once — appending one document containing
the replacement character raises the replacement tally by exactly 1, no
matter how often the character occurs in it (presence, i.e. occurrence
count at least 1, is all that is tested) — and when no document trips any
of the four detectors the stage states that no issues were found. -/
theorem C8_char_artifact_scan :
    (∀ (docs : List Document) (d : Document),
        replacement_hits (docs ++ [d]) =
          replacement_hits docs +
            (if hasReplacementChar (contentOrEmpty d) then 1 else 0)) ∧
    (∀ s : String,
        hasReplacementChar s = true ↔ 1 ≤ s.data.count (Char.ofNat 0xFFFD)) ∧
    (∀ docs : List Document,
        (∀ d ∈ docs, hasLigature (contentOrEmpty d) = false ∧
            hasReplacementChar (contentOrEmpty d) = false ∧
            hasHyphenBreak (contentOrEmpty d) = false ∧
            is_non_ascii_heavy (contentOrEmpty d) NON_ASCII_DEFAULT_THRESHOLD = false) →
          charsSection docs = [Line.charsHeader, Line.noWeirdChars]) := by
  refine ⟨?_, ?_, ?_⟩
  · intro docs d
    simp only [replacement_hits, List.countP_append, List.countP_cons, List.countP_nil]
    split
    · rename_i hd
      simp [hd]
    · rename_i hd
      simp [Bool.eq_false_iff.mpr hd]
  · intro s
    rw [Nat.one_le_iff_ne_zero, Ne, List.count_eq_zero]
    simp only [hasReplacementChar, List.any_eq_true, decide_eq_true_eq]
    constructor
    · rintro ⟨c, hc, rfl⟩ hmem
      exact absurd hc (fun h => hmem h)
    · intro h
      exact ⟨Char.ofNat 0xFFFD, not_not.mp h, rfl⟩
  · intro docs hnone
    have hlig : ligature_hits docs = 0 :=
      List.countP_eq_zero.mpr (fun d hd => by simp [(hnone d hd).1])
    have hrep : replacement_hits docs = 0 :=
      List.countP_eq_zero.mpr (fun d hd => by simp [(hnone d hd).2.1])
    have hhyp : hyphen_break_hits docs = 0 :=
      List.countP_eq_zero.mpr (fun d hd => by simp [(hnone d hd).2.2.1])
    have hna : non_ascii_heavy_hits docs = 0 :=
      List.countP_eq_zero.mpr (fun d hd => by simp [(hnone d hd).2.2.2])
    simp [charsSection, hlig, hrep, hhyp, hna]

/-- Witness for C8: a plain ASCII collection trips no detector and the
stage reports no issues. -/
theorem C8_char_artifact_scan_witness :
    charsSection plainDocs = [Line.charsHeader, Line.noWeirdChars] :=
  C8_char_artifact_scan.2.2 plainDocs (by decide)

theorem statsSection_stage (docs : List Document) :
    ∀ x ∈ statsSection docs, x.stage = 1 := by
  simp only [statsSection]
  split <;> split <;> simp [Line.stage]

theorem dupEntryLines_stage :
    ∀ (tops : List (Option String × Nat)) (j : ℕ),
      ∀ x ∈ (dupEntryLines j tops).1, x.stage = 2 := by
  intro tops
  induction tops with
  | nil => intro j x hx; simp [dupEntryLines] at hx
  | cons q rest ih =>
      intro j x hx
      match q with
      | (none, _) => simp [dupEntryLines] at hx
      | (some t, cnt) =>
          simp only [dupEntryLines] at hx
          rcases List.mem_cons.mp hx with rfl | hx
          · rfl
          · exact ih (j + 1) x hx

theorem duplicatesSection_stage (docs : List Document) :
    ∀ x ∈ (duplicatesSection docs).1, x.stage = 2 := by
  intro x hx
  simp only [duplicatesSection] at hx
  split at hx
  · rcases List.mem_cons.mp hx with rfl | hx
    · rfl
    · rcases List.mem_cons.mp hx with rfl | hx
      · rfl
      · exact absurd hx (List.not_mem_nil _)
  · rcases List.mem_cons.mp hx with rfl | hx
    · rfl
    · rcases List.mem_cons.mp hx with rfl | hx
      · rfl
      · rcases List.mem_cons.mp hx with rfl | hx
        · rfl
        · exact dupEntryLines_stage _ 1 x hx

theorem entropySection_stage (docs : List Document) :
    ∀ x ∈ entropySection docs, x.stage = 3 := by
  simp only [entropySection]
  split <;> simp [Line.stage]

theorem charsSection_stage (docs : List Document) :
    ∀ x ∈ charsSection docs, x.stage = 4 := by
  simp only [charsSection]
  split <;> split <;> split <;> split <;> split <;> simp [Line.stage]

theorem structureSection_stage (docs : List Document) :
    ∀ x ∈ structureSection docs, x.stage = 5 := by
  simp only [structureSection]
  split <;> split <;> simp [Line.stage]

theorem emptySection_stage (docs : List Document) :
    ∀ x ∈ emptySection docs, x.stage = 6 := by
  simp only [emptySection]
  split <;> simp [Line.stage]

theorem closingSection_stage :
    ∀ x ∈ closingSection, x.stage = 7 := by
  simp [closingSection, Line.stage]

theorem pairwise_map_stage_const {l : List Line} {k : ℕ}
    (h : ∀ x ∈ l, x.stage = k) :
    (l.map Line.stage).Pairwise (· ≤ ·) := by
  rw [List.pairwise_map]
  induction l with
  | nil => exact List.Pairwise.nil
  | cons a l ih =>
      refine List.Pairwise.cons ?_ (ih (fun x hx => h x (List.mem_cons_of_mem _ hx)))
      intro x hx
      rw [h a (List.mem_cons_self _ _), h x (List.mem_cons_of_mem _ hx)]

theorem sorted_stage_append (k : ℕ) {l₁ l₂ : List Line}
    (h₁ : ∀ x ∈ l₁, x.stage ≤ k) (h₂ : ∀ x ∈ l₂, k ≤ x.stage)
    (s₁ : (l₁.map Line.stage).Pairwise (· ≤ ·))
    (s₂ : (l₂.map Line.stage).Pairwise (· ≤ ·)) :
    ((l₁ ++ l₂).map Line.stage).Pairwise (· ≤ ·) := by
  rw [List.map_append]
  refine List.pairwise_append.mpr ⟨s₁, s₂, ?_⟩
  intro a ha b hb
  obtain ⟨x, hx, rfl⟩ := List.mem_map.mp ha
  obtain ⟨y, hy, rfl⟩ := List.mem_map.mp hb
  exact le_trans (h₁ x hx) (h₂ y hy)

/-- C2 counterexample: on the single-document collection `[shortDoc]`
(content `"ab"`, length 2 < 5) the run prints an empty/near-empty flag, and
the duplicate-detection header appears strictly before it: the flag is not
reported as part of the stage-1 length statistics before duplicate
detection, contrary to the claim. -/
theorem C2_counterexample :
    Line.dupHeader ∈ ((validate_docs [shortDoc]).output.takeWhile
      (fun l => !(Line.isEmptyFlag l))) ∧
    (validate_docs [shortDoc]).output.any Line.isEmptyFlag = true := by
  decide

/-- C2 as amended: on every non-empty collection where the run completes,
the report lines appear in the fixed stage order (stage tags are
non-decreasing along the output), every stage header is printed, and the
empty/near-empty flag — when lengths below 5 exist — is printed at stage
position 6, after the structural scan (stage 5) and before the closing
note (stage 7). -/
theorem C2_report_order (docs : List Document) (hne : docs ≠ [])
    (hok : (validate_docs docs).error = none) :
    ((validate_docs docs).output.map Line.stage).Pairwise (· ≤ ·) ∧
    Line.banner ∈ (validate_docs docs).output ∧
    Line.statsHeader ∈ (validate_docs docs).output ∧
    Line.dupHeader ∈ (validate_docs docs).output ∧
    Line.entropyHeader ∈ (validate_docs docs).output ∧
    Line.charsHeader ∈ (validate_docs docs).output ∧
    Line.structureHeader ∈ (validate_docs docs).output ∧
    Line.complete ∈ (validate_docs docs).output ∧
    (empty_indices docs ≠ [] →
      Line.warnEmptyNearEmpty (empty_indices docs).length
        ((empty_indices docs).take 10) ∈ (validate_docs docs).output) := by
  rcases h2 : (duplicatesSection docs).2 with _ | e
  case some =>
    exfalso
    simp only [validate_docs, if_neg hne, h2] at hok
    exact Option.noConfusion hok
  case none =>
    have hout : (validate_docs docs).output
        = Line.banner :: (statsSection docs ++ (duplicatesSection docs).1
            ++ entropySection docs ++ charsSection docs ++ structureSection docs
            ++ emptySection docs ++ closingSection) := by
      simp only [validate_docs, if_neg hne, h2]
    have b1 := statsSection_stage docs
    have b2 := duplicatesSection_stage docs
    have b3 := entropySection_stage docs
    have b4 := charsSection_stage docs
    have b5 := structureSection_stage docs
    have b6 := emptySection_stage docs
    have b7 := closingSection_stage
    have s2 : (((statsSection docs ++ (duplicatesSection docs).1)).map
        Line.stage).Pairwise (· ≤ ·) :=
      sorted_stage_append 2 (fun x hx => by have := b1 x hx; omega)
        (fun x hx => (b2 x hx).ge)
        (pairwise_map_stage_const b1) (pairwise_map_stage_const b2)
    have u2 : ∀ x ∈ statsSection docs ++ (duplicatesSection docs).1, x.stage ≤ 2 := by
      intro x hx
      rcases List.mem_append.mp hx with h | h
      · have := b1 x h; omega
      · have := b2 x h; omega
    have s3 := sorted_stage_append 3 (fun x hx => by have := u2 x hx; omega)
      (fun x hx => (b3 x hx).ge) s2 (pairwise_map_stage_const b3)
    have u3 : ∀ x ∈ statsSection docs ++ (duplicatesSection docs).1
        ++ entropySection docs, x.stage ≤ 3 := by
      intro x hx
      rcases List.mem_append.mp hx with h | h
      · have := u2 x h; omega
      · have := b3 x h; omega
    have s4 := sorted_stage_append 4 (fun x hx => by have := u3 x hx; omega)
      (fun x hx => (b4 x hx).ge) s3 (pairwise_map_stage_const b4)
    have u4 : ∀ x ∈ statsSection docs ++ (duplicatesSection docs).1
        ++ entropySection docs ++ charsSection docs, x.stage ≤ 4 := by
      intro x hx
      rcases List.mem_append.mp hx with h | h
      · have := u3 x h; omega
      · have := b4 x h; omega
    have s5 := sorted_stage_append 5 (fun x hx => by have := u4 x hx; omega)
      (fun x hx => (b5 x hx).ge) s4 (pairwise_map_stage_const b5)
    have u5 : ∀ x ∈ statsSection docs ++ (duplicatesSection docs).1
        ++ entropySection docs ++ charsSection docs ++ structureSection docs,
        x.stage ≤ 5 := by
      intro x hx
      rcases List.mem_append.mp hx with h | h
      · have := u4 x h; omega
      · have := b5 x h; omega
    have s6 := sorted_stage_append 6 (fun x hx => by have := u5 x hx; omega)
      (fun x hx => (b6 x hx).ge) s5 (pairwise_map_stage_const b6)
    have u6 : ∀ x ∈ statsSection docs ++ (duplicatesSection docs).1
        ++ entropySection docs ++ charsSection docs ++ structureSection docs
        ++ emptySection docs, x.stage ≤ 6 := by
      intro x hx
      rcases List.mem_append.mp hx with h | h
      · have := u5 x h; omega
      · have := b6 x h; omega
    have s7 := sorted_stage_append 7 (fun x hx => by have := u6 x hx; omega)
      (fun x hx => (b7 x hx).ge) s6 (pairwise_map_stage_const b7)
    have m1 : Line.statsHeader ∈ statsSection docs := by
      simp [statsSection]
    have m2 : Line.dupHeader ∈ (duplicatesSection docs).1 := by
      simp only [duplicatesSection]
      split
      · exact List.mem_cons_self _ _
      · exact List.mem_cons_self _ _
    have m3 : Line.entropyHeader ∈ entropySection docs := by
      simp only [entropySection]
      exact List.mem_cons_self _ _
    have m4 : Line.charsHeader ∈ charsSection docs := by
      simp only [charsSection]
      exact List.mem_cons_self _ _
    have m5 : Line.structureHeader ∈ structureSection docs := by
      simp only [structureSection]
      exact List.mem_cons_self _ _
    have m6 : Line.complete ∈ closingSection := by
      simp [closingSection]
    refine ⟨?_, ?_, ?_, ?_, ?_, ?_, ?_, ?_, ?_⟩
    · rw [hout, List.map_cons]
      refine List.Pairwise.cons ?_ s7
      intro y hy
      exact Nat.zero_le _
    · rw [hout]
      exact List.mem_cons_self _ _
    · rw [hout]
      exact List.mem_cons_of_mem _ (List.mem_append_left _ (List.mem_append_left _
        (List.mem_append_left _ (List.mem_append_left _ (List.mem_append_left _
          (List.mem_append_left _ m1))))))
    · rw [hout]
      exact List.mem_cons_of_mem _ (List.mem_append_left _ (List.mem_append_left _
        (List.mem_append_left _ (List.mem_append_left _ (List.mem_append_left _
          (List.mem_append_right _ m2))))))
    · rw [hout]
      exact List.mem_cons_of_mem _ (List.mem_append_left _ (List.mem_append_left _
        (List.mem_append_left _ (List.mem_append_left _ (List.mem_append_right _ m3)))))
    · rw [hout]
      exact List.mem_cons_of_mem _ (List.mem_append_left _ (List.mem_append_left _
        (List.mem_append_left _ (List.mem_append_right _ m4))))
    · rw [hout]
      exact List.mem_cons_of_mem _ (List.mem_append_left _ (List.mem_append_left _
        (List.mem_append_right _ m5)))
    · rw [hout]
      exact List.mem_cons_of_mem _ (List.mem_append_right _ m6)
    · intro hempty
      have m7 : Line.warnEmptyNearEmpty (empty_indices docs).length
          ((empty_indices docs).take 10) ∈ emptySection docs := by
        simp [emptySection, hempty]
      rw [hout]
      exact List.mem_cons_of_mem _ (List.mem_append_left _ (List.mem_append_right _ m7))

/-- Witness for C2 at the concrete collection `[shortDoc]`: the run
completes without error and its stage tags are non-decreasing. -/
theorem C2_report_order_witness :
    ((validate_docs [shortDoc]).output.map Line.stage).Pairwise (· ≤ ·) :=
  (C2_report_order [shortDoc] (by decide) (by decide)).1
